import Mathlib

/-
Verification of the fusionner merge-state engine.

The definitions below are a shallow embedding of the Rust sources:
  - src/merger.rs : Merger, Note, Merge, MergeReferenceNamer, ShouldMergeResult,
    index conflict detection, should_merge / merge / check_and_merge
  - src/git.rs : RefspecStr

Modelling conventions:
  - A git object id (git2::Oid, a 160-bit content hash) is modelled as a Nat.
    Rendering produces the 40-character lowercase hex form; parsing follows
    libgit2 git_oid_fromstrn (accepts up to 40 hex digits, right-pads with zero
    nibbles, rejects non-hex characters and overlong strings).
  - The Rust HashMap of merges is modelled as an association list with
    first-match lookup; insertion replaces the entry for the key.
  - The repository object database and reference store (external git2 library
    state) are modelled explicitly as a RepoState record; fresh object ids are
    drawn from a counter, abstracting the content-addressed store.
  - The in-memory three-way merge of the git library is an external collaborator
    and is passed in as a function from the two commit ids to the merged index.
  - Fallible operations return Except or Option; a Rust panic (unwrap failure or
    HashMap index out of bounds) is modelled as the value none.
-/

namespace Fusionner

/-- Git object id, modelled as a natural number (the 160-bit hash value). -/
abbrev Oid := Nat

/-- Lowercase hex digit for a nibble, as produced by the git oid formatter. -/
def hexDigitChar (n : Nat) : Char :=
  if n < 10 then Char.ofNat (48 + n) else Char.ofNat (87 + n)

/-- Fixed-width big-endian hex rendering of a value, nibble by nibble. -/
def toHexCore : Nat → Nat → List Char
  | 0, _ => []
  | w + 1, v => toHexCore w (v / 16) ++ [hexDigitChar (v % 16)]

/-- Rendering of an oid as its 40-character lowercase hex string, the result of
the Rust format of a git2::Oid. -/
def Oid.render (o : Oid) : String := String.mk (toHexCore 40 o)

/-- Value of one hex digit character, accepting both cases, as libgit2 does. -/
def hexVal (c : Char) : Option Nat :=
  if 48 ≤ c.toNat ∧ c.toNat ≤ 57 then some (c.toNat - 48)
  else if 97 ≤ c.toNat ∧ c.toNat ≤ 102 then some (c.toNat - 87)
  else if 65 ≤ c.toNat ∧ c.toNat ≤ 70 then some (c.toNat - 55)
  else none

/-- Accumulating hex parse of a character list; fails on any non-hex character. -/
def parseHexAux : Nat → List Char → Option Nat
  | acc, [] => some acc
  | acc, c :: rest =>
    match hexVal c with
    | none => none
    | some d => parseHexAux (acc * 16 + d) rest

/-- Parse of a hex oid string, following git2::Oid::from_str (libgit2
git_oid_fromstrn): at most 40 hex digits, the remaining nibbles are zero. -/
def Oid.from_str (s : String) : Option Oid :=
  if 40 < s.data.length then none
  else (parseHexAux 0 s.data).map (fun v => v * 16 ^ (40 - s.data.length))

/-- Association-list lookup with first-match semantics, modelling HashMap get. -/
def lookupKey {α : Type} {β : Type} [DecidableEq α] : List (α × β) → α → Option β
  | [], _ => none
  | (k, v) :: rest, key => if k = key then some v else lookupKey rest key

/-- Removal of every entry under a key, used to model HashMap replacement. -/
def removeKey {α : Type} {β : Type} [DecidableEq α] : List (α × β) → α → List (α × β)
  | [], _ => []
  | (k, v) :: rest, key =>
    if k = key then removeKey rest key else (k, v) :: removeKey rest key

/-- Insertion modelling HashMap insert: the new binding shadows and replaces any
prior binding of the key; other bindings keep their values. -/
def insertKey {α : Type} {β : Type} [DecidableEq α] (l : List (α × β)) (key : α) (v : β) :
    List (α × β) :=
  (key, v) :: removeKey l key

/-- Denotes a single merge commit for some target reference, stored in a Note
(struct Merge in src/merger.rs); all oids are stored as hex strings. -/
structure Merge where
  merge_oid : String
  target_parent_oid : String
  target_parent_reference : String
  parents_oid : List String
  merge_reference : String
deriving DecidableEq

/-- Map from target reference to Merge (type Merges in src/merger.rs). -/
abbrev Merges := List (String × Merge)

/-- Note stored for each commit on the current head of a topic branch
(struct Note in src/merger.rs). -/
structure Note where
  _note_origin : String
  _version : Nat
  merges : Merges
deriving DecidableEq

/-- Fixed origin string NOTE_ID from src/merger.rs. -/
def NOTE_ID : String := "fusionner <https://github.com/lawliet89/fusionner>"

/-- Note format version NOTE_VERSION from src/merger.rs. -/
def NOTE_VERSION : Nat := 1

/-- Constructor Note::new. -/
def Note.new (merges : Merges) : Note :=
  { _note_origin := NOTE_ID, _version := NOTE_VERSION, merges := merges }

/-- Constructor Note::new_with_merge. -/
def Note.new_with_merge (merge : Merge) : Note :=
  Note.new [(merge.target_parent_reference, merge)]

/-- Note::append_with_merge: inserts the merge under its target parent
reference, returning the previous entry if it existed, and the updated note. -/
def Note.append_with_merge (n : Note) (merge : Merge) : Option Merge × Note :=
  (lookupKey n.merges merge.target_parent_reference,
   { n with merges := insertKey n.merges merge.target_parent_reference merge })

/-- Note::find_matching_merges: the merges of the note whose recorded target
parent oid parses to an oid equal to the given target oid. -/
def Note.find_matching_merges (n : Note) (target_oid : Oid) : List (String × Merge) :=
  n.merges.filter (fun p =>
    match Oid.from_str p.2.target_parent_oid with
    | none => false
    | some oid => decide (oid = target_oid))

/-- Constructor Merge::new: formats all oids to their hex strings. -/
def Merge.new (merge_oid : Oid) (target_parent_oid : Oid) (target_parent_reference : String)
    (parents : List Oid) (merge_reference : String) : Merge :=
  { merge_oid := Oid.render merge_oid,
    target_parent_oid := Oid.render target_parent_oid,
    target_parent_reference := target_parent_reference,
    parents_oid := parents.map Oid.render,
    merge_reference := merge_reference }

/-- Wrapper around a refspec string (struct RefspecStr in src/git.rs). -/
structure RefspecStr where
  force : Bool
  refspec : String
deriving DecidableEq

/-- RefspecStr::from_str: a leading plus sign marks force and is split off. -/
def RefspecStr.from_str (s : String) : RefspecStr :=
  match s.data with
  | c :: rest => if c = '+' then { force := true, refspec := String.mk rest }
                 else { force := false, refspec := s }
  | [] => { force := false, refspec := s }

/-- RefspecStr::to_string: re-prepends the plus sign when the force flag is set. -/
def RefspecStr.to_string (r : RefspecStr) : String :=
  if r.force then "+" ++ r.refspec else r.refspec

/-- RefspecStr::set_force. -/
def RefspecStr.set_force (r : RefspecStr) (force : Bool) : RefspecStr :=
  { r with force := force }

/-- RefspecStr::separator_index: position of the first colon, if any. -/
def RefspecStr.separator_index (r : RefspecStr) : Option Nat :=
  r.refspec.data.findIdx? (fun c => c = ':')

/-- RefspecStr::src: the part before the first colon, or the whole refspec. -/
def RefspecStr.src (r : RefspecStr) : String :=
  match r.separator_index with
  | some index => String.mk (r.refspec.data.take index)
  | none => r.refspec

/-- RefspecStr::dest: the part after the first colon, if a colon exists. -/
def RefspecStr.dest (r : RefspecStr) : Option String :=
  r.separator_index.map (fun index => String.mk (r.refspec.data.drop (index + 1)))

/-- RefspecStr::as_forced: parse, set the force flag, render. -/
def RefspecStr.as_forced (s : String) : String :=
  ((RefspecStr.from_str s).set_force true).to_string

/-- Base of the default merge reference names (DEFAULT_NERGE_REFERENCE_BASE in
src/merger.rs, preserving the original constant name). -/
def DEFAULT_NERGE_REFERENCE_BASE : String := "refs/fusionner"

/-- Character-list split on a separator, the semantics of the Rust str split
iterator: adjacent separators and separators at either end produce empty
segments, and the empty input yields one empty segment. -/
def splitChars (sep : Char) : List Char → List (List Char)
  | [] => [[]]
  | c :: rest =>
    if c = sep then [] :: splitChars sep rest
    else
      match splitChars sep rest with
      | [] => [[c]]
      | h :: t => (c :: h) :: t

/-- Customisation of merge reference naming (enum MergeReferenceNamer). -/
inductive MergeReferenceNamer where
  | Default : MergeReferenceNamer
  | Custom (cb : String → String → Oid → Oid → String) : MergeReferenceNamer

/-- MergeReferenceNamer::reference_last_item: the last segment of the reference
split on the slash character, or the empty string if there is none. -/
def MergeReferenceNamer.reference_last_item (reference : String) : String :=
  String.mk (((splitChars '/' reference.data).getLast?).getD [])

/-- MergeReferenceNamer::resolve: the default namer joins the base with the last
segments of both references; the custom namer invokes the callback. -/
def MergeReferenceNamer.resolve (n : MergeReferenceNamer) (reference : String)
    (target_reference : String) (oid : Oid) (target_oid : Oid) : String :=
  match n with
  | MergeReferenceNamer.Default =>
    DEFAULT_NERGE_REFERENCE_BASE ++ "/" ++
      MergeReferenceNamer.reference_last_item reference ++ "/" ++
      MergeReferenceNamer.reference_last_item target_reference
  | MergeReferenceNamer.Custom cb => cb reference target_reference oid target_oid

/-- Result of Merger::should_merge (enum ShouldMergeResult in src/merger.rs). -/
inductive ShouldMergeResult where
  | Merge (note : Option Note) : ShouldMergeResult
  | ExistingMergeInSameTargetReference (note : Note) : ShouldMergeResult
  | ExistingMergeInDifferentTargetReference (note : Note) (merges : List Fusionner.Merge)
      (proposed_merge : Fusionner.Merge) : ShouldMergeResult
deriving DecidableEq

/-- Kinds of find_note failure: the note object is absent, or it is present but
its message is missing or does not decode to a Note. -/
inductive NoteErr where
  | noteMissing : NoteErr
  | invalidNote : NoteErr
deriving DecidableEq

/-- Stored state of the note for one oid: either a well-formed Note or a blob
that does not decode. -/
inductive NoteSlot where
  | malformed : NoteSlot
  | good (n : Note) : NoteSlot
deriving DecidableEq

/-- One commit object of the object database: tree, parents in order, message,
author and committer signatures. -/
structure CommitObj where
  tree : Oid
  parents : List Oid
  message : String
  author : String
  committer : String
deriving DecidableEq

/-- Entry of a git index; only the flags word (which carries the stage number in
bits 12 and 13) is relevant to the sources. -/
structure IndexEntry where
  flags : Nat
deriving DecidableEq

/-- GIT_IDXENTRY_STAGEMASK from the raw git bindings. -/
def GIT_IDXENTRY_STAGEMASK : Nat := 0x3000

/-- GIT_IDXENTRY_STAGESHIFT from the raw git bindings. -/
def GIT_IDXENTRY_STAGESHIFT : Nat := 12

/-- Function git_index_entry_stage in src/merger.rs. -/
def git_index_entry_stage (entry : IndexEntry) : Nat :=
  (entry.flags &&& GIT_IDXENTRY_STAGEMASK) >>> GIT_IDXENTRY_STAGESHIFT

/-- Function git_index_entry_is_conflict in src/merger.rs. -/
def git_index_entry_is_conflict (entry : IndexEntry) : Bool :=
  decide (0 < git_index_entry_stage entry)

/-- Function index_in_conflict in src/merger.rs. -/
def index_in_conflict (entries : List IndexEntry) : Bool :=
  entries.any (fun entry => git_index_entry_is_conflict entry)

/-- State of the local mirror repository: commit objects, tree objects (recorded
as the index they were written from), the reference store, the note store of the
configured namespace, and a counter supplying fresh object ids (abstracting the
content-addressed object database). -/
structure RepoState where
  commits : List (Oid × CommitObj)
  trees : List (Oid × List IndexEntry)
  refs : List (String × Oid)
  notes : List (Oid × NoteSlot)
  next : Nat
deriving DecidableEq

/-- Errors surfaced by the merge operations, by kind. -/
inductive GitError where
  | commitLookup : GitError
  | conflict : GitError
deriving DecidableEq

/-- Remote interactions recorded by check_and_merge, each carrying its refspec
list: fetches of merge references and the final optional push. -/
inductive Action where
  | fetch (refspecs : List String) : Action
  | push (refspecs : List String) : Action
deriving DecidableEq

/-- Merger::notes_reference: the notes reference of the configured namespace. -/
def Merger.notes_reference (ns : String) : String := "refs/notes/" ++ ns

/-- Merger::find_note: looks up the note stored for the oid and decodes it;
fails when the note is absent (NoteMissing) or present but malformed
(InvalidNote, covering a missing message and a failed decode alike). -/
def Merger.find_note (st : RepoState) (oid : Oid) : Except NoteErr Note :=
  match lookupKey st.notes oid with
  | none => Except.error NoteErr.noteMissing
  | some NoteSlot.malformed => Except.error NoteErr.invalidNote
  | some (NoteSlot.good n) => Except.ok n

/-- Merger::add_note: serialises the note and stores it for the oid, overwriting
any existing note (the force flag of the underlying note call is set). -/
def Merger.add_note (st : RepoState) (note : Note) (oid : Oid) : RepoState :=
  { st with notes := insertKey st.notes oid (NoteSlot.good note) }

/-- Merger::should_merge, translated clause by clause from src/merger.rs lines
214 to 254. Any find_note failure yields Merge none. Otherwise the matching
merges of the found note decide the variant. The value none models a panic: the
unwrap of Oid::from_str on the merge_oid of the first matching merge. -/
def Merger.should_merge (namer : MergeReferenceNamer) (st : RepoState) (oid : Oid)
    (target_oid : Oid) (reference : String) (target_reference : String) :
    Option ShouldMergeResult :=
  match Merger.find_note st oid with
  | Except.error _ => some (ShouldMergeResult.Merge none)
  | Except.ok note =>
    if (note.find_matching_merges target_oid).isEmpty then
      some (ShouldMergeResult.Merge (some note))
    else
      match lookupKey (note.find_matching_merges target_oid) target_reference with
      | some _ => some (ShouldMergeResult.ExistingMergeInSameTargetReference note)
      | none =>
        match (note.find_matching_merges target_oid).head? with
        | none => none
        | some first =>
          match Oid.from_str first.2.merge_oid with
          | none => none
          | some merge_oid =>
            some (ShouldMergeResult.ExistingMergeInDifferentTargetReference note
              ((note.find_matching_merges target_oid).map Prod.snd)
              (Merge.new merge_oid target_oid target_reference [oid]
                (namer.resolve reference target_reference oid target_oid)))

/-- Merger::merge_commit_message. -/
def Merger.merge_commit_message (base_oid : Oid) (target_oid : Oid) (reference : String)
    (target_reference : String) : String :=
  "Merge " ++ reference ++ " (" ++ Oid.render base_oid ++ ") into " ++
    target_reference ++ " (" ++ Oid.render target_oid ++ ")"

/-- Index write_tree_to: records the tree written from the index under a fresh
object id. -/
def writeTree (st : RepoState) (index : List IndexEntry) : Oid × RepoState :=
  (st.next, { st with trees := (st.next, index) :: st.trees, next := st.next + 1 })

/-- Repository commit: creates a commit object with the given tree, message and
parents under a fresh object id, and points the update reference at it. -/
def commitOp (st : RepoState) (update_ref : Option String) (author : String)
    (committer : String) (message : String) (tree : Oid) (parents : List Oid) :
    Oid × RepoState :=
  let oid := st.next
  let st1 := { st with
    commits := (oid, { tree := tree, parents := parents, message := message,
                       author := author, committer := committer }) :: st.commits,
    next := st.next + 1 }
  match update_ref with
  | none => (oid, st1)
  | some r => (oid, { st1 with refs := insertKey st1.refs r oid })

/-- Merger::merge, translated from src/merger.rs lines 261 to 304. The two
commits are looked up, the external three-way merge produces an index, a
conflicting index aborts before any mutation, and otherwise the tree is written,
any stale merge reference deleted, and the merge commit created with parents
in the order target then topic. -/
def Merger.merge (mergeCommits : Oid → Oid → List IndexEntry) (namer : MergeReferenceNamer)
    (sig : String) (st : RepoState) (oid : Oid) (target_oid : Oid) (reference : String)
    (target_reference : String) : Except GitError Merge × RepoState :=
  match lookupKey st.commits target_oid with
  | none => (Except.error GitError.commitLookup, st)
  | some _ =>
    match lookupKey st.commits oid with
    | none => (Except.error GitError.commitLookup, st)
    | some _ =>
      if index_in_conflict (mergeCommits target_oid oid) then
        (Except.error GitError.conflict, st)
      else
        let written := writeTree st (mergeCommits target_oid oid)
        let commit_reference := namer.resolve reference target_reference oid target_oid
        let st2 :=
          match lookupKey written.2.refs commit_reference with
          | some _ => { written.2 with refs := removeKey written.2.refs commit_reference }
          | none => written.2
        let committed := commitOp st2 (some commit_reference) sig sig
          (Merger.merge_commit_message oid target_oid reference target_reference)
          written.1 [target_oid, oid]
        (Except.ok (Merge.new committed.1 target_oid target_reference [oid] commit_reference),
         committed.2)

/-- Merger::check_and_merge, translated from src/merger.rs lines 310 to 379.
Dispatches on should_merge; records remote fetches and the optional final push
as actions. The value none models a panic propagating from should_merge or from
the direct map indexing in the same-target-reference branch. -/
def Merger.check_and_merge (mergeCommits : Oid → Oid → List IndexEntry)
    (namer : MergeReferenceNamer) (ns : String) (sig : String) (st : RepoState) (oid : Oid)
    (target_oid : Oid) (reference : String) (target_ref : String) (push : Bool) :
    Option (Except GitError (Merge × ShouldMergeResult) × RepoState × List Action) :=
  match Merger.should_merge namer st oid target_oid reference target_ref with
  | none => none
  | some sm =>
    match sm with
    | ShouldMergeResult.Merge note? =>
      match Merger.merge mergeCommits namer sig st oid target_oid reference target_ref with
      | (Except.error e, st1) => some (Except.error e, st1, [])
      | (Except.ok merge, st1) =>
        let note :=
          match note? with
          | none => Note.new_with_merge merge
          | some n => (n.append_with_merge merge).2
        let st2 := Merger.add_note st1 note oid
        let pushRefs := [Merger.notes_reference ns, merge.merge_reference]
        let actions := if push then [Action.push (pushRefs.map RefspecStr.as_forced)] else []
        some (Except.ok (merge, sm), st2, actions)
    | ShouldMergeResult.ExistingMergeInSameTargetReference note =>
      match lookupKey note.merges target_ref with
      | none => none
      | some merge =>
        let actions := [Action.fetch [RefspecStr.as_forced merge.merge_reference]]
        let pushRefs := [Merger.notes_reference ns]
        let actions :=
          if push then actions ++ [Action.push (pushRefs.map RefspecStr.as_forced)] else actions
        some (Except.ok (merge, sm), st, actions)
    | ShouldMergeResult.ExistingMergeInDifferentTargetReference note _ proposed_merge =>
      let note1 := (note.append_with_merge proposed_merge).2
      let st1 := Merger.add_note st note1 oid
      let actions := [Action.fetch [RefspecStr.as_forced proposed_merge.merge_reference]]
      let pushRefs := [Merger.notes_reference ns]
      let actions :=
        if push then actions ++ [Action.push (pushRefs.map RefspecStr.as_forced)] else actions
      some (Except.ok (proposed_merge, sm), st1, actions)

/-- Concrete well-formed merge record used to exercise the definitions. -/
def wMergeA : Merge :=
  { merge_oid := Oid.render 9, target_parent_oid := Oid.render 7,
    target_parent_reference := "refs/heads/master", parents_oid := [Oid.render 3],
    merge_reference := "refs/fusionner/topic/master" }

/-- Concrete note holding one well-formed merge under refs/heads/master. -/
def wNoteA : Note := Note.new [("refs/heads/master", wMergeA)]

/-- Repository state whose note store maps oid 3 to the well-formed note. -/
def wStSame : RepoState :=
  { commits := [], trees := [], refs := [], notes := [(3, NoteSlot.good wNoteA)], next := 0 }

/-- Merge record whose merge_oid field is not a hex oid string. -/
def badMergeA : Merge := { wMergeA with merge_oid := "not-an-oid" }

/-- Note holding the merge with the malformed merge_oid field. -/
def badNoteA : Note := Note.new [("refs/heads/master", badMergeA)]

/-- Repository state whose note for oid 3 decodes but carries a malformed
merge_oid, reaching the unwrap in should_merge. -/
def badOidSt : RepoState :=
  { commits := [], trees := [], refs := [], notes := [(3, NoteSlot.good badNoteA)], next := 0 }

/-- Repository state whose note blob for oid 5 is present but does not decode. -/
def malformedSt : RepoState :=
  { commits := [], trees := [], refs := [], notes := [(5, NoteSlot.malformed)], next := 0 }

/-- Repository state with an empty note store. -/
def emptySt : RepoState :=
  { commits := [], trees := [], refs := [], notes := [], next := 0 }

/-- Concrete commit object. -/
def cObjA : CommitObj :=
  { tree := 0, parents := [], message := "root", author := "tester", committer := "tester" }

/-- Repository state holding two commits, ids 1 and 2. -/
def wStCommits : RepoState :=
  { commits := [(1, cObjA), (2, cObjA)], trees := [], refs := [], notes := [], next := 10 }

/-- External three-way merge returning an index with one stage-1 entry. -/
def mcConflict : Oid → Oid → List IndexEntry := fun _ _ => [{ flags := 0x1000 }]

/-- External three-way merge returning a clean (empty) index. -/
def mcClean : Oid → Oid → List IndexEntry := fun _ _ => []

/-- Result of a concrete successful merge of commit 2 into commit 1. -/
def c5res : Except GitError Merge × RepoState :=
  Merger.merge mcClean MergeReferenceNamer.Default "tester" wStCommits 2 1
    "refs/heads/branch" "refs/heads/master"

/-- Merge record of the concrete successful merge. -/
def c5m : Merge :=
  match c5res.1 with
  | Except.ok m => m
  | Except.error _ => Merge.new 0 0 "" [] ""

/-- Repository state after the concrete successful merge. -/
def c5st : RepoState := c5res.2

/-- Concrete merge record targeting refs/heads/develop. -/
def wMergeB : Merge :=
  { merge_oid := Oid.render 9, target_parent_oid := Oid.render 8,
    target_parent_reference := "refs/heads/develop", parents_oid := [],
    merge_reference := "refs/fusionner/topic/develop" }

/- Helper lemmas on the association-list operations and the conflict test. -/

@[simp]
theorem lookupKey_nil {α β : Type} [DecidableEq α] (k : α) :
    lookupKey ([] : List (α × β)) k = none := rfl

@[simp]
theorem lookupKey_cons {α β : Type} [DecidableEq α] (a : α) (b : β) (l : List (α × β)) (k : α) :
    lookupKey ((a, b) :: l) k = if a = k then some b else lookupKey l k := rfl

@[simp]
theorem removeKey_nil {α β : Type} [DecidableEq α] (key : α) :
    removeKey ([] : List (α × β)) key = [] := rfl

theorem removeKey_cons {α β : Type} [DecidableEq α] (a : α) (b : β) (l : List (α × β)) (key : α) :
    removeKey ((a, b) :: l) key =
      if a = key then removeKey l key else (a, b) :: removeKey l key := rfl

theorem lookupKey_removeKey_ne {α β : Type} [DecidableEq α] (l : List (α × β)) (key k : α)
    (h : k ≠ key) : lookupKey (removeKey l key) k = lookupKey l k := by
  induction l with
  | nil => rfl
  | cons p rest ih =>
    obtain ⟨a, b⟩ := p
    by_cases ha : a = key
    · subst ha
      rw [removeKey_cons, if_pos rfl, ih, lookupKey_cons,
        if_neg (fun hh : a = k => h hh.symm)]
    · rw [removeKey_cons, if_neg ha, lookupKey_cons, lookupKey_cons, ih]

theorem lookupKey_filter_isSome {α β : Type} [DecidableEq α] (p : α × β → Bool)
    (l : List (α × β)) (k : α) :
    ∀ v : β, lookupKey (l.filter p) k = some v → (lookupKey l k).isSome := by
  induction l with
  | nil => intro v h; simp at h
  | cons q rest ih =>
    intro v h
    obtain ⟨a, b⟩ := q
    by_cases hk : a = k
    · simp [hk]
    · rw [lookupKey_cons, if_neg hk]
      by_cases hp : p (a, b) = true
      · rw [List.filter_cons, if_pos hp] at h
        rw [lookupKey_cons, if_neg hk] at h
        exact ih v h
      · rw [List.filter_cons, if_neg hp] at h
        exact ih v h

theorem index_in_conflict_iff (l : List IndexEntry) :
    index_in_conflict l = true ↔ ∃ e ∈ l, 0 < git_index_entry_stage e := by
  unfold index_in_conflict git_index_entry_is_conflict
  simp [List.any_eq_true]

theorem splitChars_of_not_mem (sep : Char) (l : List Char) (h : sep ∉ l) :
    splitChars sep l = [l] := by
  induction l with
  | nil => rfl
  | cons c rest ih =>
    rw [List.mem_cons, not_or] at h
    unfold splitChars
    rw [if_neg (fun hc : c = sep => h.1 hc.symm), ih h.2]

theorem should_merge_of_find_err (namer : MergeReferenceNamer) (st : RepoState) (oid : Oid)
    (target_oid : Oid) (reference target_reference : String) (e : NoteErr)
    (h : Merger.find_note st oid = Except.error e) :
    Merger.should_merge namer st oid target_oid reference target_reference =
      some (ShouldMergeResult.Merge none) := by
  unfold Merger.should_merge
  rw [h]

theorem should_merge_of_find_ok (namer : MergeReferenceNamer) (st : RepoState) (oid : Oid)
    (target_oid : Oid) (reference target_reference : String) (note : Note)
    (h : Merger.find_note st oid = Except.ok note) :
    Merger.should_merge namer st oid target_oid reference target_reference =
      (if (note.find_matching_merges target_oid).isEmpty then
        some (ShouldMergeResult.Merge (some note))
      else
        match lookupKey (note.find_matching_merges target_oid) target_reference with
        | some _ => some (ShouldMergeResult.ExistingMergeInSameTargetReference note)
        | none =>
          match (note.find_matching_merges target_oid).head? with
          | none => none
          | some first =>
            match Oid.from_str first.2.merge_oid with
            | none => none
            | some merge_oid =>
              some (ShouldMergeResult.ExistingMergeInDifferentTargetReference note
                ((note.find_matching_merges target_oid).map Prod.snd)
                (Merge.new merge_oid target_oid target_reference [oid]
                  (namer.resolve reference target_reference oid target_oid)))) := by
  unfold Merger.should_merge
  rw [h]

theorem same_target_lookup_isSome (namer : MergeReferenceNamer) (st : RepoState) (oid : Oid)
    (toid : Oid) (ref tref : String) (note : Note)
    (h : Merger.should_merge namer st oid toid ref tref =
      some (ShouldMergeResult.ExistingMergeInSameTargetReference note)) :
    (lookupKey note.merges tref).isSome := by
  cases hfn : Merger.find_note st oid with
  | error e =>
    rw [should_merge_of_find_err namer st oid toid ref tref e hfn] at h
    simp at h
  | ok n =>
    rw [should_merge_of_find_ok namer st oid toid ref tref n hfn] at h
    split at h
    · simp at h
    · split at h
      next m heq =>
        simp only [Option.some.injEq,
          ShouldMergeResult.ExistingMergeInSameTargetReference.injEq] at h
        subst h
        exact lookupKey_filter_isSome _ _ _ m heq
      next heq =>
        split at h
        · exact Option.noConfusion h
        · split at h
          · exact Option.noConfusion h
          · simp at h

/-- C6: for every refspec string, rendering the parsed form yields the string
back: the leading plus force marker split off by RefspecStr::from_str is
re-prepended by RefspecStr::to_string, and nothing else is altered. -/
theorem refspec_round_trip (s : String) : (RefspecStr.from_str s).to_string = s := by
  obtain ⟨data⟩ := s
  cases data with
  | nil => rfl
  | cons c rest =>
    by_cases hc : c = '+'
    · subst hc
      rfl
    · have h1 : RefspecStr.from_str (String.mk (c :: rest)) =
          { force := false, refspec := String.mk (c :: rest) } := by
        unfold RefspecStr.from_str
        exact if_neg hc
      rw [h1]
      rfl

/-- C7: Note::append_with_merge maps the target parent reference of the new
merge to that merge, leaves every other key with its prior value, and returns
the previous merge stored under that key when one existed, so each note keeps
at most one merge per target reference. -/
theorem note_append_with_merge_spec (n : Note) (m : Merge) :
    lookupKey (n.append_with_merge m).2.merges m.target_parent_reference = some m
    ∧ (∀ k : String, k ≠ m.target_parent_reference →
        lookupKey (n.append_with_merge m).2.merges k = lookupKey n.merges k)
    ∧ (n.append_with_merge m).1 = lookupKey n.merges m.target_parent_reference := by
  refine ⟨?_, ?_, rfl⟩
  · simp [Note.append_with_merge, insertKey]
  · intro k hk
    show lookupKey (insertKey n.merges m.target_parent_reference m) k = lookupKey n.merges k
    rw [insertKey, lookupKey_cons,
      if_neg (fun hh : m.target_parent_reference = k => hk hh.symm)]
    exact lookupKey_removeKey_ne _ _ _ hk

/-- C7 witness: appending a merge for refs/heads/develop to the concrete note
leaves the entry under refs/heads/master unchanged. -/
theorem note_append_with_merge_spec_witness :
    lookupKey (wNoteA.append_with_merge wMergeB).2.merges "refs/heads/master" =
      lookupKey wNoteA.merges "refs/heads/master" :=
  (note_append_with_merge_spec wNoteA wMergeB).2.1 "refs/heads/master" (by decide)

/-- C8: the default merge reference namer resolves to the base refs/fusionner
joined with the last slash-delimited segment of each reference; a reference
without a slash is its own tail; references with equal tails resolve to the
same merge reference. -/
theorem default_namer_spec (ref tref : String) (oid toid : Oid) :
    MergeReferenceNamer.resolve MergeReferenceNamer.Default ref tref oid toid =
      "refs/fusionner" ++ "/" ++ MergeReferenceNamer.reference_last_item ref ++ "/" ++
        MergeReferenceNamer.reference_last_item tref
    ∧ ('/' ∉ ref.data → MergeReferenceNamer.reference_last_item ref = ref)
    ∧ (∀ ref2 : String,
        MergeReferenceNamer.reference_last_item ref =
          MergeReferenceNamer.reference_last_item ref2 →
        MergeReferenceNamer.resolve MergeReferenceNamer.Default ref tref oid toid =
          MergeReferenceNamer.resolve MergeReferenceNamer.Default ref2 tref oid toid) := by
  refine ⟨rfl, ?_, ?_⟩
  · intro h
    unfold MergeReferenceNamer.reference_last_item
    rw [splitChars_of_not_mem '/' ref.data h]
    rfl
  · intro ref2 h
    unfold MergeReferenceNamer.resolve
    rw [h]

/-- C8 witness: the default namer at concrete references, and the tail of a
reference without a slash. -/
theorem default_namer_spec_witness :
    MergeReferenceNamer.resolve MergeReferenceNamer.Default "refs/heads/some-branch"
        "refs/heads/master" 1 2 =
      "refs/fusionner" ++ "/" ++
        MergeReferenceNamer.reference_last_item "refs/heads/some-branch" ++ "/" ++
        MergeReferenceNamer.reference_last_item "refs/heads/master"
    ∧ MergeReferenceNamer.reference_last_item "master" = "master" :=
  ⟨(default_namer_spec "refs/heads/some-branch" "refs/heads/master" 1 2).1,
   (default_namer_spec "master" "refs/heads/master" 1 2).2.1 (by decide)⟩

/-- C9: whenever should_merge answers ExistingMergeInSameTargetReference for a
note, the target reference is a key of the merges map of that note, so the
direct map indexing in the corresponding branch of check_and_merge cannot
panic. -/
theorem same_target_index_safe (mc : Oid → Oid → List IndexEntry)
    (namer : MergeReferenceNamer) (ns sig : String) (st : RepoState) (oid toid : Oid)
    (ref tref : String) (push : Bool) (note : Note)
    (h : Merger.should_merge namer st oid toid ref tref =
      some (ShouldMergeResult.ExistingMergeInSameTargetReference note)) :
    (lookupKey note.merges tref).isSome
    ∧ Merger.check_and_merge mc namer ns sig st oid toid ref tref push ≠ none := by
  have hlk := same_target_lookup_isSome namer st oid toid ref tref note h
  refine ⟨hlk, ?_⟩
  obtain ⟨m, hm⟩ := Option.isSome_iff_exists.mp hlk
  simp [Merger.check_and_merge, h, hm]

/-- C9 witness: at the concrete state whose note stores a merge for
refs/heads/master matching target oid 7, the same-target branch is reached and
the map lookup is defined. -/
theorem same_target_index_safe_witness :
    (lookupKey wNoteA.merges "refs/heads/master").isSome
    ∧ Merger.check_and_merge mcClean MergeReferenceNamer.Default "fusionner" "tester" wStSame 3
        7 "refs/heads/topic" "refs/heads/master" true ≠ none :=
  same_target_index_safe mcClean MergeReferenceNamer.Default "fusionner" "tester" wStSame 3 7
    "refs/heads/topic" "refs/heads/master" true wNoteA (by decide)

/-- C2: when both commits exist and the in-memory three-way merge yields an
index with an entry of nonzero stage, Merger::merge fails with the conflict
error and returns the repository state unchanged: no tree is written, no commit
or reference is created or deleted, and no note is touched. -/
theorem merge_conflict_no_mutation (mc : Oid → Oid → List IndexEntry)
    (namer : MergeReferenceNamer) (sig : String) (st : RepoState) (oid toid : Oid)
    (ref tref : String)
    (hc1 : (lookupKey st.commits toid).isSome)
    (hc2 : (lookupKey st.commits oid).isSome)
    (hconf : ∃ e ∈ mc toid oid, 0 < git_index_entry_stage e) :
    Merger.merge mc namer sig st oid toid ref tref = (Except.error GitError.conflict, st) := by
  obtain ⟨a, ha⟩ := Option.isSome_iff_exists.mp hc1
  obtain ⟨b, hb⟩ := Option.isSome_iff_exists.mp hc2
  have hic : index_in_conflict (mc toid oid) = true := (index_in_conflict_iff _).mpr hconf
  simp [Merger.merge, ha, hb, hic]

/-- C2 witness: a concrete conflicting merge of commits 2 and 1 errors and
leaves the concrete state unchanged. -/
theorem merge_conflict_no_mutation_witness :
    Merger.merge mcConflict MergeReferenceNamer.Default "tester" wStCommits 2 1
      "refs/heads/branch" "refs/heads/master" = (Except.error GitError.conflict, wStCommits) :=
  merge_conflict_no_mutation mcConflict MergeReferenceNamer.Default "tester" wStCommits 2 1
    "refs/heads/branch" "refs/heads/master" (by decide) (by decide)
    ⟨{ flags := 0x1000 }, by decide, by decide⟩

/-- C5: every merge commit created by a successful Merger::merge has exactly the
two parents target then topic, carries the tree written from the merged index,
and its message is the exact formatted merge message. -/
theorem merge_commit_shape (mc : Oid → Oid → List IndexEntry) (namer : MergeReferenceNamer)
    (sig : String) (st : RepoState) (oid toid : Oid) (ref tref : String) (m : Merge)
    (st1 : RepoState)
    (h : Merger.merge mc namer sig st oid toid ref tref = (Except.ok m, st1)) :
    ∃ moid cobj,
      m.merge_oid = Oid.render moid
      ∧ lookupKey st1.commits moid = some cobj
      ∧ cobj.parents = [toid, oid]
      ∧ cobj.message = "Merge " ++ ref ++ " (" ++ Oid.render oid ++ ") into " ++
          tref ++ " (" ++ Oid.render toid ++ ")"
      ∧ lookupKey st1.trees cobj.tree = some (mc toid oid) := by
  unfold Merger.merge at h
  split at h
  · simp at h
  · split at h
    · simp at h
    · split at h
      · simp at h
      · simp only [writeTree, commitOp] at h
        split at h <;>
          (simp only [Prod.mk.injEq, Except.ok.injEq] at h
           obtain ⟨hm, hst⟩ := h
           subst hm
           subst hst
           refine ⟨st.next + 1,
             { tree := st.next, parents := [toid, oid],
               message := Merger.merge_commit_message oid toid ref tref,
               author := sig, committer := sig }, rfl, ?_, rfl, rfl, ?_⟩ <;>
             simp [lookupKey])

/-- C5 witness: the concrete successful merge of commit 2 into commit 1
produces a commit with parents target then topic and the written tree. -/
theorem merge_commit_shape_witness :
    ∃ moid cobj,
      c5m.merge_oid = Oid.render moid
      ∧ lookupKey c5st.commits moid = some cobj
      ∧ cobj.parents = [1, 2]
      ∧ cobj.message = "Merge " ++ "refs/heads/branch" ++ " (" ++ Oid.render 2 ++ ") into " ++
          "refs/heads/master" ++ " (" ++ Oid.render 1 ++ ")"
      ∧ lookupKey c5st.trees cobj.tree = some (mcClean 1 2) :=
  merge_commit_shape mcClean MergeReferenceNamer.Default "tester" wStCommits 2 1
    "refs/heads/branch" "refs/heads/master" c5m c5st rfl

/-- C3 counterexample: the note blob for oid 5 is present but malformed, so
find_note fails with InvalidNote, yet should_merge still returns Merge none,
contradicting the claim that only a missing note triggers Merge none. -/
theorem invalid_note_counterexample :
    Merger.find_note malformedSt 5 = Except.error NoteErr.invalidNote
    ∧ Merger.should_merge MergeReferenceNamer.Default malformedSt 5 7 "refs/heads/topic"
        "refs/heads/master" = some (ShouldMergeResult.Merge none) :=
  ⟨rfl, rfl⟩

/-- C3 amended: every find_note failure, whether the note is missing or present
but malformed, makes should_merge return Merge none; the code does not
distinguish InvalidNote from NoteMissing. -/
theorem should_merge_any_find_err (namer : MergeReferenceNamer) (st : RepoState)
    (oid toid : Oid) (ref tref : String) (e : NoteErr)
    (h : Merger.find_note st oid = Except.error e) :
    Merger.should_merge namer st oid toid ref tref = some (ShouldMergeResult.Merge none) :=
  should_merge_of_find_err namer st oid toid ref tref e h

/-- C3 witness: the amended statement at the concrete malformed-note state. -/
theorem should_merge_any_find_err_witness :
    Merger.should_merge MergeReferenceNamer.Default malformedSt 5 9 "refs/heads/a"
      "refs/heads/b" = some (ShouldMergeResult.Merge none) :=
  should_merge_any_find_err MergeReferenceNamer.Default malformedSt 5 9 "refs/heads/a"
    "refs/heads/b" NoteErr.invalidNote rfl

/-- C1 counterexample: for a concrete note whose only matching merge stores a
malformed merge_oid and whose recorded target reference differs from the
queried one, should_merge evaluates to none, modelling the unwrap panic, so it
does not return the ExistingMergeInDifferentTargetReference value the
unconditional claim promises. -/
theorem should_merge_unwrap_counterexample :
    Merger.find_note badOidSt 3 = Except.ok badNoteA
    ∧ badNoteA.find_matching_merges 7 ≠ []
    ∧ lookupKey (badNoteA.find_matching_merges 7) "refs/heads/develop" = none
    ∧ Merger.should_merge MergeReferenceNamer.Default badOidSt 3 7 "refs/heads/topic"
        "refs/heads/develop" = none :=
  ⟨rfl, by decide, by decide, by decide⟩

/-- C1 amended: should_merge returns Merge none exactly when find_note fails;
for a found note it returns Merge (some note) when no merge matches the target
oid, ExistingMergeInSameTargetReference when the target reference is a key of
the matching merges, and, provided the matching merges carry well-formed
merge_oid strings, ExistingMergeInDifferentTargetReference whose proposed merge
has the new target reference, parent list [topic oid], the merge oid of one of
the matching merges, and the reference computed by the namer. -/
theorem should_merge_case_analysis (namer : MergeReferenceNamer) (st : RepoState)
    (oid toid : Oid) (ref tref : String) :
    (Merger.should_merge namer st oid toid ref tref = some (ShouldMergeResult.Merge none) ↔
      ∃ e, Merger.find_note st oid = Except.error e)
    ∧ (∀ note : Note, Merger.find_note st oid = Except.ok note →
        (note.find_matching_merges toid = [] →
          Merger.should_merge namer st oid toid ref tref =
            some (ShouldMergeResult.Merge (some note)))
        ∧ (∀ m : Merge, lookupKey (note.find_matching_merges toid) tref = some m →
            Merger.should_merge namer st oid toid ref tref =
              some (ShouldMergeResult.ExistingMergeInSameTargetReference note))
        ∧ (note.find_matching_merges toid ≠ [] →
           lookupKey (note.find_matching_merges toid) tref = none →
           (∀ p ∈ note.find_matching_merges toid, (Oid.from_str p.2.merge_oid).isSome) →
           ∃ pm : Merge,
             Merger.should_merge namer st oid toid ref tref =
               some (ShouldMergeResult.ExistingMergeInDifferentTargetReference note
                 ((note.find_matching_merges toid).map Prod.snd) pm)
             ∧ pm.target_parent_reference = tref
             ∧ pm.parents_oid = [Oid.render oid]
             ∧ (∃ p ∈ note.find_matching_merges toid, ∃ v : Oid,
                 Oid.from_str p.2.merge_oid = some v ∧ pm.merge_oid = Oid.render v)
             ∧ pm.merge_reference = namer.resolve ref tref oid toid)) := by
  constructor
  · constructor
    · intro h
      cases hfn : Merger.find_note st oid with
      | error e => exact ⟨e, rfl⟩
      | ok n =>
        rw [should_merge_of_find_ok namer st oid toid ref tref n hfn] at h
        exfalso
        split at h
        · simp at h
        · split at h
          · simp at h
          next heq =>
            split at h
            · exact Option.noConfusion h
            · split at h
              · exact Option.noConfusion h
              · simp at h
    · intro he
      obtain ⟨e, he⟩ := he
      exact should_merge_of_find_err namer st oid toid ref tref e he
  · intro note hfn
    refine ⟨?_, ?_, ?_⟩
    · intro hnil
      rw [should_merge_of_find_ok namer st oid toid ref tref note hfn, hnil]
      rfl
    · intro m hm
      rw [should_merge_of_find_ok namer st oid toid ref tref note hfn]
      have hne : (note.find_matching_merges toid).isEmpty = false := by
        cases hl : note.find_matching_merges toid with
        | nil => rw [hl] at hm; simp at hm
        | cons a t => rfl
      rw [if_neg (by simp [hne]), hm]
    · intro hne hnone hwf
      rw [should_merge_of_find_ok namer st oid toid ref tref note hfn]
      cases hl : note.find_matching_merges toid with
      | nil => exact absurd hl hne
      | cons first rest =>
        rw [hl] at hnone
        have hfs : (Oid.from_str first.2.merge_oid).isSome := by
          apply hwf first
          rw [hl]
          exact List.mem_cons_self first rest
        obtain ⟨v, hv⟩ := Option.isSome_iff_exists.mp hfs
        rw [if_neg (by simp), hnone]
        simp only [List.head?_cons]
        rw [hv]
        exact ⟨Merge.new v toid tref [oid] (namer.resolve ref tref oid toid),
          rfl, rfl, rfl, ⟨first, List.mem_cons_self first rest, v, hv, rfl⟩, rfl⟩

/-- C1 witness: the amended case analysis at a concrete state whose note
matches the target oid under a different target reference. -/
theorem should_merge_case_analysis_witness :
    ∃ pm : Merge,
      Merger.should_merge MergeReferenceNamer.Default wStSame 3 7 "refs/heads/topic"
        "refs/heads/develop" =
        some (ShouldMergeResult.ExistingMergeInDifferentTargetReference wNoteA
          ((wNoteA.find_matching_merges 7).map Prod.snd) pm)
      ∧ pm.target_parent_reference = "refs/heads/develop"
      ∧ pm.parents_oid = [Oid.render 3]
      ∧ (∃ p ∈ wNoteA.find_matching_merges 7, ∃ v : Oid,
          Oid.from_str p.2.merge_oid = some v ∧ pm.merge_oid = Oid.render v)
      ∧ pm.merge_reference = MergeReferenceNamer.resolve MergeReferenceNamer.Default
          "refs/heads/topic" "refs/heads/develop" 3 7 :=
  ((should_merge_case_analysis MergeReferenceNamer.Default wStSame 3 7 "refs/heads/topic"
      "refs/heads/develop").2 wNoteA rfl).2.2 (by decide) (by decide) (by decide)

/-- C4: when should_merge reports an existing matching merge, in the same or in
a different target reference, check_and_merge creates no new commit object:
the commit store, tree store and reference store are unchanged, and at most the
note store is rewritten while remote fetches and pushes are recorded. -/
theorem check_and_merge_no_new_commit (mc : Oid → Oid → List IndexEntry)
    (namer : MergeReferenceNamer) (ns sig : String) (st : RepoState) (oid toid : Oid)
    (ref tref : String) (push : Bool) (r : ShouldMergeResult)
    (hsm : Merger.should_merge namer st oid toid ref tref = some r)
    (hex : (∃ n, r = ShouldMergeResult.ExistingMergeInSameTargetReference n)
      ∨ ∃ n ms pm, r = ShouldMergeResult.ExistingMergeInDifferentTargetReference n ms pm) :
    ∃ res st1 acts,
      Merger.check_and_merge mc namer ns sig st oid toid ref tref push = some (res, st1, acts)
      ∧ st1.commits = st.commits ∧ st1.trees = st.trees ∧ st1.refs = st.refs := by
  rcases hex with ⟨n, rfl⟩ | ⟨n, ms, pm, rfl⟩
  · have hlk := same_target_lookup_isSome namer st oid toid ref tref n hsm
    obtain ⟨m, hm⟩ := Option.isSome_iff_exists.mp hlk
    simp only [Merger.check_and_merge, hsm, hm]
    exact ⟨_, _, _, rfl, rfl, rfl, rfl⟩
  · simp only [Merger.check_and_merge, hsm]
    exact ⟨_, _, _, rfl, rfl, rfl, rfl⟩

/-- C4 witness: the concrete up-to-date state keeps its commit, tree and
reference stores through check_and_merge. -/
theorem check_and_merge_no_new_commit_witness :
    ∃ res st1 acts,
      Merger.check_and_merge mcClean MergeReferenceNamer.Default "fusionner" "tester" wStSame 3
        7 "refs/heads/topic" "refs/heads/master" false = some (res, st1, acts)
      ∧ st1.commits = wStSame.commits ∧ st1.trees = wStSame.trees ∧ st1.refs = wStSame.refs :=
  check_and_merge_no_new_commit mcClean MergeReferenceNamer.Default "fusionner" "tester"
    wStSame 3 7 "refs/heads/topic" "refs/heads/master" false
    (ShouldMergeResult.ExistingMergeInSameTargetReference wNoteA) (by decide)
    (Or.inl ⟨wNoteA, rfl⟩)

/-- C10: should_merge never reaches the failing unwrap when every matching
merge of the found note stores a well-formed merge_oid, and it does panic,
modelled as the value none, at a concrete note whose matching merge stores a
malformed merge_oid. -/
theorem should_merge_unwrap_safety :
    (∀ (namer : MergeReferenceNamer) (st : RepoState) (oid toid : Oid) (ref tref : String),
      (∀ note : Note, Merger.find_note st oid = Except.ok note →
        ∀ p ∈ note.find_matching_merges toid, (Oid.from_str p.2.merge_oid).isSome) →
      (Merger.should_merge namer st oid toid ref tref).isSome)
    ∧ Merger.should_merge MergeReferenceNamer.Default badOidSt 3 7 "refs/heads/topic"
        "refs/heads/develop" = none := by
  constructor
  · intro namer st oid toid ref tref hwf
    cases hfn : Merger.find_note st oid with
    | error e => rw [should_merge_of_find_err namer st oid toid ref tref e hfn]; rfl
    | ok n =>
      rw [should_merge_of_find_ok namer st oid toid ref tref n hfn]
      by_cases hemp : (n.find_matching_merges toid).isEmpty
      · rw [if_pos hemp]; rfl
      · rw [if_neg hemp]
        cases hlk : lookupKey (n.find_matching_merges toid) tref with
        | some m => rfl
        | none =>
          cases hl : n.find_matching_merges toid with
          | nil => rw [hl] at hemp; simp at hemp
          | cons first rest =>
            have hfs : (Oid.from_str first.2.merge_oid).isSome := by
              apply hwf n hfn first
              rw [hl]
              exact List.mem_cons_self first rest
            obtain ⟨v, hv⟩ := Option.isSome_iff_exists.mp hfs
            simp only [List.head?_cons]
            rw [hv]
            rfl
  · decide

/-- C10 witness: panic freedom at a concrete state, with the precondition
discharged because no note exists there. -/
theorem should_merge_unwrap_safety_witness :
    (Merger.should_merge MergeReferenceNamer.Default emptySt 1 2 "refs/heads/a"
      "refs/heads/b").isSome :=
  should_merge_unwrap_safety.1 MergeReferenceNamer.Default emptySt 1 2 "refs/heads/a"
    "refs/heads/b" (fun _note hfind _p _hp => Except.noConfusion hfind)

end Fusionner
